import Mathlib

set_option autoImplicit false

/-!
Verification development for the protocol orchestration layer
(`openvpn/ssl/protostack.hpp`, class `ProtoStackBase`).

The orchestrator state is embedded as an explicit record `St`.  The
member functions of `ProtoStackBase` become Lean functions on `St`;
C++ exceptions become an `Except` result carrying the state at the
moment of unwinding (object state persists across a throw).  The
derived-layer pure-virtual callbacks (`encapsulate`, `decapsulate`,
`generate_ack`) are an environment record `Env`; per their documented
contracts they may read and rewrite only the reliability-layer fields
they are handed.  The remaining callbacks have write-only contracts
and are embedded as logs inside the state: `net_send` appends to
`netLog`, `app_recv` to `appLog`, `raw_recv` to `rawLog`, and
`invalidate_callback` increments the counter `icb_calls`.

The secure-session object (external to the repository) and the
reliability windows (`relrecv.hpp` / `relsend.hpp`, repository files
not included in the sources under verification) are modelled from the
specification, as marked on each definition.
-/

namespace ProtoStack

/-- Exception identity: exceptions are opaque values that must be
re-raised unchanged, so a natural number tag suffices. -/
abbrev Exc := Nat

/-- Cleartext or ciphertext byte buffer (`BufferPtr` contents). -/
abbrev Buf := List Nat

/-- PACKET template parameter: default-constructible sentinel
(`pdef = false`), raw-vs-SSL-ciphertext test `raw`, and the
underlying buffer. -/
structure Packet where
  pdef : Bool
  raw : Bool
  buf : Buf
deriving DecidableEq

/-- Empty packet, the post-default-constructor state. -/
def Packet.empty : Packet := ⟨false, false, []⟩

/-- Error statistic tags recorded via `stats->error(...)`. -/
inductive StatTag where
  | SSL_ERROR
  | ENCAPSULATION_ERROR
deriving DecidableEq

/-- Time values with the `Time::infinite()` sentinel. -/
inductive MTime where
  | fin : Nat → MTime
  | inf
deriving DecidableEq

/-- Boolean order on times; `inf` is the top element. -/
def MTime.ble : MTime → MTime → Bool
  | .fin a, .fin b => Nat.ble a b
  | _, .inf => true
  | .inf, .fin _ => false

/-- Addition of a time and a duration; `inf` absorbs. -/
def MTime.add : MTime → MTime → MTime
  | .fin a, .fin b => .fin (a + b)
  | _, _ => .inf

/-- Truncated duration between two times. -/
def MTime.sub : MTime → MTime → MTime
  | .fin a, .fin b => .fin (a - b)
  | .inf, _ => .inf
  | .fin _, .inf => .fin 0

/-- Minimum of two times under `MTime.ble`. -/
def MTime.mmin (a b : MTime) : MTime := if MTime.ble a b then a else b

/-- Modelled from the spec: one reliable-send-window entry
(`relsend.hpp` `Message`, a repository file outside the verified
sources): the stored packet, its retransmit deadline, and whether the
entry is still outstanding (`live = false` once an ACK erased it). -/
structure RSMsg where
  packet : Packet
  retransmit_at : MTime
  live : Bool
deriving DecidableEq

/-- Modelled from the spec: the reliable send window
(`ReliableSendTemplate`): monotonically increasing sequence ids, slot
`i` of `msgs` holding id `head_id + i`; `span` bounds capacity and
`rto` is the retransmit timeout applied on each (re)transmission. -/
structure RelSend where
  span : Nat
  rto : Nat
  head_id : Nat
  msgs : List RSMsg
deriving DecidableEq

/-- Modelled from the spec: one past the newest allocated id. -/
def RelSend.tail_id (rs : RelSend) : Nat := rs.head_id + rs.msgs.length

/-- Modelled from the spec: capacity check (room to send). -/
def RelSend.ready (rs : RelSend) : Bool := rs.msgs.length < rs.span

/-- Modelled from the spec: allocate the next sequence id for `pkt`
and arm its retransmit deadline at `now + rto`. -/
def RelSend.send (rs : RelSend) (now : Nat) (pkt : Packet) : RelSend :=
  { rs with msgs := rs.msgs ++ [⟨pkt, .fin (now + rs.rto), true⟩] }

/-- Replace the packet stored in the most recently allocated entry
(the C++ code encapsulates `m.packet` in place after `send`). -/
def updateLast : List RSMsg → Packet → List RSMsg
  | [], _ => []
  | [m], p => [{ m with packet := p }]
  | m :: m2 :: rest, p => m :: updateLast (m2 :: rest) p

/-- Store the encapsulated packet back into the newest entry. -/
def RelSend.assign_last (rs : RelSend) (p : Packet) : RelSend :=
  { rs with msgs := updateLast rs.msgs p }

/-- Modelled from the spec: earliest retransmit deadline among
outstanding entries, `inf` when none is outstanding. -/
def RelSend.earliest : List RSMsg → MTime
  | [] => .inf
  | m :: rest =>
      if m.live then MTime.mmin m.retransmit_at (RelSend.earliest rest)
      else RelSend.earliest rest

/-- Modelled from the spec: the window's estimate of the time until
the next retransmission is due. -/
def RelSend.until_retransmit (rs : RelSend) (now : Nat) : MTime :=
  MTime.sub (RelSend.earliest rs.msgs) (.fin now)

/-- Erase helper for `RelSend.ack`: slot-indexed recursion. -/
def ackErase (cur target : Nat) : List RSMsg → List RSMsg
  | [] => []
  | m :: rest =>
      (if cur = target then { m with live := false } else m)
        :: ackErase (cur + 1) target rest

/-- Modelled from the spec: erase (acknowledge) the entry holding
sequence id `i`; the slot stays but is no longer outstanding. -/
def RelSend.ack (rs : RelSend) (i : Nat) : RelSend :=
  { rs with msgs := ackErase rs.head_id i rs.msgs }

/-- Modelled from the spec: the reliable receive window
(`ReliableRecvTemplate`, a repository file outside the verified
sources): slot `i` of `msgs` holds the packet received with sequence
id `head_id + i`, `none` while that id has not arrived. -/
structure RelRecv where
  head_id : Nat
  msgs : List (Option Packet)
deriving DecidableEq

/-- Modelled from the spec: a sequenced (next-in-order) packet is
available exactly when the head slot is occupied. -/
def RelRecv.rrready (rr : RelRecv) : Bool :=
  match rr.msgs with
  | some _ :: _ => true
  | _ => false

/-- Result of one `write_cleartext_unbuffered` call. -/
inductive WCRes where
  | retry
  | wrote : Nat → WCRes
  | err : Exc → WCRes
deriving DecidableEq

/-- Result of one `read_cleartext` call. -/
inductive RCRes where
  | retry
  | data : Buf → RCRes
  | err : Exc → RCRes
deriving DecidableEq

/-- Modelled from the spec: the external secure-session adapter, as a
scripted object.  `wc_script` and `rc_script` give the successive
results of the cleartext write and read operations; `out_ct` is the
queue behind `read_ciphertext_ready`/`read_ciphertext`; `in_ct`
records everything fed to `write_ciphertext`; `bytes_in` records the
cleartext bytes the session accepted; `start_res` is the outcome of
`start_handshake` (`none` = success). -/
structure SSLObj where
  started : Bool
  start_res : Option Exc
  wc_script : List WCRes
  bytes_in : List Nat
  out_ct : List Buf
  in_ct : List Buf
  rc_script : List RCRes
deriving DecidableEq

/-- The `ProtoStackBase` object state.  Field names follow the
source; the trailing log fields embed the write-only delivery
callbacks (`netLog` for `net_send`, `appLog` for `app_recv`, `rawLog`
for `raw_recv`) and `icb_calls` counts `invalidate_callback`
invocations. -/
structure St where
  up_stack_reentry_level : Nat
  invalidated_ : Bool
  ssl_started_ : Bool
  next_retransmit_ : MTime
  to_app_buf : Option Buf
  ack_send_buf : Packet
  app_write_queue : List Buf
  raw_write_queue : List Packet
  hasStats : Bool
  statLog : List StatTag
  ssl : SSLObj
  rel_recv : RelRecv
  rel_send : RelSend
  xmit_acks : List Nat
  max_ack_list : Nat
  netLog : List Packet
  appLog : List Buf
  rawLog : List Packet
  icb_calls : Nat
deriving DecidableEq

/-- Result of an operation that may unwind with a C++ exception: on
`error` the exception tag is paired with the object state at the
moment of unwinding (the object outlives the throw). -/
abbrev Res := Except (Exc × St) St

/-- Modelled from the spec: the derived-layer pure-virtual callbacks.
Each receives exactly the data its documented contract lets it read
and rewrite: `encapsulate` the id, the packet, and the pending-ACK
list it may drain (it may throw, fatally); `decapsulate` the packet
and the receive window, send window, and pending-ACK list it updates,
returning whether the packet was queued (it may throw, non-fatally);
`generate_ack` drains pending ACKs into a standalone packet. -/
structure Env where
  encapsulate : Nat → Packet → List Nat → Except Exc (Packet × List Nat)
  decapsulate : Packet → RelRecv → RelSend → List Nat →
    Except Exc (Bool × RelRecv × RelSend × List Nat)
  generate_ack : List Nat → Packet × List Nat

/-- Record an error statistic when a stats object is attached
(`if (stats) stats->error(tag)`). -/
def stat_error (tag : StatTag) (s : St) : St :=
  if s.hasStats then { s with statLog := s.statLog ++ [tag] } else s

/-- Invalidate session: latch the flag and notify the derived-layer
hook (`invalidated_ = true; invalidate_callback();`). -/
def invalidate (s : St) : St :=
  { s with invalidated_ := true, icb_calls := s.icb_calls + 1 }

/-- Outcome of the `down_stack_app` cleartext write loop: remaining
queue, remaining write script, bytes the session accepted, and the
exception (if one was thrown). -/
structure WLoopRes where
  q : List Buf
  scr : List WCRes
  accepted : List Nat
  err : Option Exc

/-- Cleartext write loop of `down_stack_app`: feed queued buffers to
`write_cleartext_unbuffered`; stop on `SHOULD_RETRY`; pop the buffer
on any other return; on an exception stop with the buffer still
queued.  An exhausted script is treated as would-block. -/
def dsaWriteLoop : List Buf → List WCRes → WLoopRes
  | [], scr => ⟨[], scr, [], none⟩
  | buf :: rest, [] => ⟨buf :: rest, [], [], none⟩
  | buf :: rest, .retry :: scr => ⟨buf :: rest, scr, [], none⟩
  | buf :: rest, .err e :: scr => ⟨buf :: rest, scr, [], some e⟩
  | buf :: rest, .wrote n :: scr =>
      let r := dsaWriteLoop rest scr
      ⟨r.q, r.scr, buf.take n ++ r.accepted, r.err⟩

/-- Cleartext half of `down_stack_app`: on an exception from the
session write, record `SSL_ERROR`, invalidate, and re-raise. -/
def down_stack_app_write (s : St) : Res :=
  let r := dsaWriteLoop s.app_write_queue s.ssl.wc_script
  let s' := { s with
    app_write_queue := r.q,
    ssl := { s.ssl with wc_script := r.scr, bytes_in := s.ssl.bytes_in ++ r.accepted } }
  match r.err with
  | none => .ok s'
  | some e => .error (e, invalidate (stat_error .SSL_ERROR s'))

/-- Outcome of a send-window encapsulation loop: remaining input
queue, updated send window, remaining pending ACKs, packets handed to
`net_send`, and the exception (if `encapsulate` threw). -/
structure CtLoopRes where
  ct : List Buf
  rs : RelSend
  xa : List Nat
  sent : List Packet
  err : Option Exc

/-- Ciphertext half of `down_stack_app`: while ciphertext is ready
and the send window has room, allocate the next id, wrap the record
as an SSL (non-raw) packet, encapsulate, and transmit; on an
exception from `encapsulate` the freshly allocated entry keeps the
unencapsulated packet and the loop unwinds. -/
def dsaEncapLoop (env : Env) (now : Nat) :
    List Buf → RelSend → List Nat → CtLoopRes
  | [], rs, xa => ⟨[], rs, xa, [], none⟩
  | ct :: rest, rs, xa =>
    if rs.ready then
      let id := rs.tail_id
      let pkt : Packet := ⟨true, false, ct⟩
      let rs1 := rs.send now pkt
      match env.encapsulate id pkt xa with
      | .error e => ⟨rest, rs1, xa, [], some e⟩
      | .ok pr =>
          let r := dsaEncapLoop env now rest (rs1.assign_last pr.1) pr.2
          ⟨r.ct, r.rs, r.xa, pr.1 :: r.sent, r.err⟩
    else ⟨ct :: rest, rs, xa, [], none⟩

/-- App data -> SSL -> encapsulation -> reliability layer -> network
(`down_stack_app`): both halves run only once the SSL handshake has
been started; an exception from `encapsulate` records
`ENCAPSULATION_ERROR`, invalidates, and re-raises. -/
def down_stack_app (env : Env) (now : Nat) (s : St) : Res :=
  if s.ssl_started_ then
    match down_stack_app_write s with
    | .error r => .error r
    | .ok s1 =>
      let r := dsaEncapLoop env now s1.ssl.out_ct s1.rel_send s1.xmit_acks
      let s2 := { s1 with
        ssl := { s1.ssl with out_ct := r.ct },
        rel_send := r.rs, xmit_acks := r.xa,
        netLog := s1.netLog ++ r.sent }
      match r.err with
      | none => .ok s2
      | some e => .error (e, invalidate (stat_error .ENCAPSULATION_ERROR s2))
  else .ok s

/-- Outcome of the raw-queue encapsulation loop. -/
structure RawLoopRes where
  q : List Packet
  rs : RelSend
  xa : List Nat
  sent : List Packet
  err : Option Exc

/-- Raw branch loop: while the raw queue is non-empty and the send
window has room, pop one packet, allocate the next id, encapsulate,
transmit. -/
def dsrLoop (env : Env) (now : Nat) :
    List Packet → RelSend → List Nat → RawLoopRes
  | [], rs, xa => ⟨[], rs, xa, [], none⟩
  | pkt :: rest, rs, xa =>
    if rs.ready then
      let id := rs.tail_id
      let rs1 := rs.send now pkt
      match env.encapsulate id pkt xa with
      | .error e => ⟨rest, rs1, xa, [], some e⟩
      | .ok pr =>
          let r := dsrLoop env now rest (rs1.assign_last pr.1) pr.2
          ⟨r.q, r.rs, r.xa, pr.1 :: r.sent, r.err⟩
    else ⟨pkt :: rest, rs, xa, [], none⟩

/-- Raw app data -> encapsulation -> reliability layer -> network
(`down_stack_raw`): an exception from `encapsulate` records
`ENCAPSULATION_ERROR`, invalidates, and re-raises. -/
def down_stack_raw (env : Env) (now : Nat) (s : St) : Res :=
  let r := dsrLoop env now s.raw_write_queue s.rel_send s.xmit_acks
  let s' := { s with
    raw_write_queue := r.q, rel_send := r.rs, xmit_acks := r.xa,
    netLog := s.netLog ++ r.sent }
  match r.err with
  | none => .ok s'
  | some e => .error (e, invalidate (stat_error .ENCAPSULATION_ERROR s'))

/-- Recompute the global retransmit deadline
(`next_retransmit_ = *now + rel_send.until_retransmit(*now)`). -/
def update_retransmit (now : Nat) (s : St) : St :=
  { s with next_retransmit_ := MTime.add (.fin now) (s.rel_send.until_retransmit now) }

/-- Outcome of the receive-window drain loop of `up_sequenced`:
remaining window slots, number of slots advanced, raw packets
delivered to `raw_recv`, ciphertext records fed to
`write_ciphertext`. -/
structure DLoopRes where
  msgs : List (Option Packet)
  adv : Nat
  raws : List Packet
  cts : List Buf

/-- Drain loop of `up_sequenced`: while a sequenced packet is ready,
deliver raw packets to the application and SSL packets to the
session's ciphertext intake, but stop at an SSL packet when the
handshake has not been started (the packet remains queued). -/
def usdLoop (started : Bool) : List (Option Packet) → DLoopRes
  | [] => ⟨[], 0, [], []⟩
  | none :: rest => ⟨none :: rest, 0, [], []⟩
  | some p :: rest =>
    if p.raw then
      let r := usdLoop started rest
      ⟨r.msgs, r.adv + 1, p :: r.raws, r.cts⟩
    else if started then
      let r := usdLoop started rest
      ⟨r.msgs, r.adv + 1, r.raws, p.buf :: r.cts⟩
    else ⟨some p :: rest, 0, [], []⟩

/-- First half of `up_sequenced`: move sequenced packets up from the
receive window. -/
def up_seq_drain (s : St) : St :=
  let r := usdLoop s.ssl_started_ s.rel_recv.msgs
  { s with
    rel_recv := ⟨s.rel_recv.head_id + r.adv, r.msgs⟩,
    rawLog := s.rawLog ++ r.raws,
    ssl := { s.ssl with in_ct := s.ssl.in_ct ++ r.cts } }

/-- Outcome of the `read_cleartext` loop: remaining read script,
cleartext buffers delivered to `app_recv`, and the exception (if one
was thrown). -/
structure CLoopRes where
  scr : List RCRes
  ds : List Buf
  err : Option Exc

/-- Read loop of `up_sequenced`: while the session reports cleartext
ready, read it; stop on `SHOULD_RETRY`; deliver each chunk to the
application. -/
def usrLoop : List RCRes → CLoopRes
  | [] => ⟨[], [], none⟩
  | .retry :: scr => ⟨scr, [], none⟩
  | .err e :: scr => ⟨scr, [], some e⟩
  | .data b :: scr =>
      let r := usrLoop scr
      ⟨r.scr, b :: r.ds, r.err⟩

/-- Second half of `up_sequenced`: read cleartext out of the session
into the reusable scratch buffer and deliver it; an exception from
`read_cleartext` records `SSL_ERROR`, invalidates, and re-raises. -/
def up_seq_read (s : St) : Res :=
  let r := usrLoop s.ssl.rc_script
  let s' := { s with
    ssl := { s.ssl with rc_script := r.scr },
    appLog := s.appLog ++ r.ds,
    to_app_buf := match r.ds.getLast? with
      | some b => some b
      | none => s.to_app_buf }
  match r.err with
  | none => .ok s'
  | some e => .error (e, invalidate (stat_error .SSL_ERROR s'))

/-- Move sequenced packets up the stack, then read any cleartext the
session yields (`up_sequenced`). -/
def up_sequenced (s : St) : Res :=
  let s1 := up_seq_drain s
  if s1.ssl_started_ then up_seq_read s1 else .ok s1

/-- Destructor of the scoped `UseCount` guard: decrement the
reentrancy counter of the state carried by a result, on either exit
path (normal return or exception unwinding). -/
def unbump (r : Res) : Res :=
  match r with
  | .ok t => .ok { t with up_stack_reentry_level := t.up_stack_reentry_level - 1 }
  | .error p =>
      .error (p.1, { p.2 with up_stack_reentry_level := p.2.up_stack_reentry_level - 1 })

/-- Network -> reliability layer -> decapsulation -> SSL -> app
(`up_stack`): the reentrancy counter is scoped by a `UseCount` guard,
so it is restored on every exit path, including a propagated
exception.  A `decapsulate` exception propagates without touching the
session state. -/
def up_stack (env : Env) (p : Packet) (s : St) : Res :=
  let s1 := { s with up_stack_reentry_level := s.up_stack_reentry_level + 1 }
  match env.decapsulate p s1.rel_recv s1.rel_send s1.xmit_acks with
  | .error e =>
      .error (e, { s1 with up_stack_reentry_level := s1.up_stack_reentry_level - 1 })
  | .ok q =>
      let s2 := { s1 with rel_recv := q.2.1, rel_send := q.2.2.1, xmit_acks := q.2.2.2 }
      unbump (if q.1 then up_sequenced s2 else .ok s2)

/-- Start the SSL handshake (`start_handshake`): no-op when
invalidated; otherwise start the session, mark it started, and
immediately attempt to drain in-order receive-window data.  A failure
from the session's own `start_handshake` propagates uncaught. -/
def start_handshake (s : St) : Res :=
  if s.invalidated_ then .ok s
  else
    match s.ssl.start_res with
    | some e => .error (e, s)
    | none =>
        up_sequenced { s with ssl_started_ := true, ssl := { s.ssl with started := true } }

/-- Incoming packet from the network (`net_recv`): no-op when
invalidated. -/
def net_recv (env : Env) (p : Packet) (s : St) : Res :=
  if s.invalidated_ then .ok s else up_stack env p s

/-- Enqueue an outbound cleartext buffer (`app_send`): no-op when
invalidated; no I/O is performed. -/
def app_send (b : Buf) (s : St) : St :=
  if s.invalidated_ then s
  else { s with app_write_queue := s.app_write_queue ++ [b] }

/-- Enqueue an outbound raw packet (`raw_send`): no-op when
invalidated. -/
def raw_send (p : Packet) (s : St) : St :=
  if s.invalidated_ then s
  else { s with raw_write_queue := s.raw_write_queue ++ [p] }

/-- Write pending data to the network and update the retransmit timer
(`flush`): suppressed when invalidated or inside a reentrant
`up_stack` dispatch. -/
def flush (env : Env) (now : Nat) (s : St) : Res :=
  if !s.invalidated_ && s.up_stack_reentry_level == 0 then
    match down_stack_raw env now s with
    | .error r => .error r
    | .ok s1 =>
      match down_stack_app env now s1 with
      | .error r => .error r
      | .ok s2 => .ok (update_retransmit now s2)
  else .ok s

/-- Standalone-ACK loop of `send_pending_acks`, driven by fuel equal
to the initial number of pending ACKs: the C++ loop relies on
`generate_ack` draining at least one id per iteration (it diverges
otherwise); the fuel bounds that behaviour. -/
def spaLoop (env : Env) : Nat → St → St
  | 0, s => s
  | fuel + 1, s =>
    match s.xmit_acks with
    | [] => s
    | a :: rest =>
        let pr := env.generate_ack (a :: rest)
        spaLoop env fuel
          { s with ack_send_buf := pr.1, xmit_acks := pr.2,
                   netLog := s.netLog ++ [pr.1] }

/-- Send standalone ACKs until the pending-ACK set drains
(`send_pending_acks`): no-op when invalidated. -/
def send_pending_acks (env : Env) (s : St) : St :=
  if s.invalidated_ then s else spaLoop env s.xmit_acks.length s

/-- Entry-deadline test of the retransmit scan
(`m.ready_retransmit(*now)`): outstanding and past its deadline. -/
def elapsed (now : Nat) (m : RSMsg) : Bool :=
  m.live && MTime.ble m.retransmit_at (.fin now)

/-- Retransmit scan: visit the send-window entries from head to tail
(slot order is sequence-id order); re-send each elapsed entry's
stored packet and re-arm its deadline. -/
def retransmitScan (now rto : Nat) : List RSMsg → List RSMsg × List Packet
  | [] => ([], [])
  | m :: rest =>
      let r := retransmitScan now rto rest
      if elapsed now m then
        ({ m with retransmit_at := .fin (now + rto) } :: r.1, m.packet :: r.2)
      else (m :: r.1, r.2)

/-- Send pending retransmissions (`retransmit`): acts only when not
invalidated and the current time has reached the global retransmit
deadline; afterwards recompute the deadline. -/
def retransmit (now : Nat) (s : St) : St :=
  if !s.invalidated_ && MTime.ble s.next_retransmit_ (.fin now) then
    let r := retransmitScan now s.rel_send.rto s.rel_send.msgs
    update_retransmit now
      { s with rel_send := { s.rel_send with msgs := r.1 },
               netLog := s.netLog ++ r.2 }
  else s

/-- When to next call `retransmit` (`next_retransmit`): the infinite
sentinel once invalidated. -/
def next_retransmit (s : St) : MTime :=
  if s.invalidated_ then MTime.inf else s.next_retransmit_

/-- Reentrancy level of the state carried by a result, on either exit
path. -/
def reentry_of (r : Res) : Nat :=
  match r with
  | .ok t => t.up_stack_reentry_level
  | .error p => p.2.up_stack_reentry_level

/-! Concrete fixtures used by witnesses and counterexamples. -/

/-- Idle secure-session fixture. -/
def ssl0 : SSLObj := ⟨false, none, [], [], [], [], []⟩

/-- Empty send window fixture: span 4, retransmit timeout 3. -/
def rs0 : RelSend := ⟨4, 3, 0, []⟩

/-- Empty receive window fixture. -/
def rr0 : RelRecv := ⟨0, []⟩

/-- Freshly constructed orchestrator fixture. -/
def st0 : St :=
  { up_stack_reentry_level := 0, invalidated_ := false, ssl_started_ := false,
    next_retransmit_ := .inf, to_app_buf := none, ack_send_buf := Packet.empty,
    app_write_queue := [], raw_write_queue := [], hasStats := true, statLog := [],
    ssl := ssl0, rel_recv := rr0, rel_send := rs0, xmit_acks := [],
    max_ack_list := 4, netLog := [], appLog := [], rawLog := [], icb_calls := 0 }

/-- Benign derived layer fixture: encapsulation is the identity and
drains no ACKs, decapsulation queues nothing. -/
def env0 : Env :=
  { encapsulate := fun _ p xa => .ok (p, xa),
    decapsulate := fun _ rr rs xa => .ok (false, rr, rs, xa),
    generate_ack := fun xa => (Packet.empty, xa.drop 1) }

/-! Shared helper lemmas. -/

/-- All mutating public operations are identities on an invalidated
state. -/
theorem noop_when_invalidated (env : Env) (now : Nat) (p : Packet) (b : Buf)
    (s : St) (h : s.invalidated_ = true) :
    start_handshake s = .ok s ∧ net_recv env p s = .ok s ∧
    app_send b s = s ∧ raw_send p s = s ∧ flush env now s = .ok s ∧
    send_pending_acks env s = s ∧ retransmit now s = s := by
  refine ⟨?_, ?_, ?_, ?_, ?_, ?_, ?_⟩ <;>
    simp [start_handshake, net_recv, app_send, raw_send, flush,
      send_pending_acks, retransmit, h]

/-- The receive-window drain touches neither the reentrancy counter
nor the latch, the handshake flag, the deadline, the queues, the
statistics, or the send window. -/
theorem up_seq_drain_fields (s : St) :
    (up_seq_drain s).up_stack_reentry_level = s.up_stack_reentry_level ∧
    (up_seq_drain s).invalidated_ = s.invalidated_ ∧
    (up_seq_drain s).ssl_started_ = s.ssl_started_ ∧
    (up_seq_drain s).next_retransmit_ = s.next_retransmit_ ∧
    (up_seq_drain s).hasStats = s.hasStats ∧
    (up_seq_drain s).statLog = s.statLog ∧
    (up_seq_drain s).rel_send = s.rel_send ∧
    (up_seq_drain s).icb_calls = s.icb_calls :=
  ⟨rfl, rfl, rfl, rfl, rfl, rfl, rfl, rfl⟩

/-- The state carried out of `up_seq_read`, on either exit path,
keeps the reentrancy counter. -/
theorem reentry_of_up_seq_read (s : St) :
    reentry_of (up_seq_read s) = s.up_stack_reentry_level := by
  unfold up_seq_read
  cases herr : (usrLoop s.ssl.rc_script).err with
  | none => simp [herr, reentry_of]
  | some e =>
      simp only [herr, reentry_of, invalidate, stat_error]
      split <;> rfl

/-- The state carried out of `up_sequenced`, on either exit path,
keeps the reentrancy counter. -/
theorem up_sequenced_def (s : St) :
    up_sequenced s =
      if (up_seq_drain s).ssl_started_ = true then up_seq_read (up_seq_drain s)
      else .ok (up_seq_drain s) := rfl

theorem reentry_of_up_sequenced (s : St) :
    reentry_of (up_sequenced s) = s.up_stack_reentry_level := by
  rw [up_sequenced_def]
  by_cases h : (up_seq_drain s).ssl_started_ = true
  · rw [if_pos h]
    exact (reentry_of_up_seq_read (up_seq_drain s)).trans
      (up_seq_drain_fields s).1
  · rw [if_neg h]
    exact (up_seq_drain_fields s).1

/-- A `decapsulate` exception makes `up_stack` unwind with the object
exactly as it was: the `UseCount` guard restores the counter and
nothing else was touched. -/
theorem up_stack_decap_error (env : Env) (p : Packet) (s : St) (e : Exc)
    (hdec : env.decapsulate p s.rel_recv s.rel_send s.xmit_acks = .error e) :
    up_stack env p s = .error (e, s) := by
  unfold up_stack
  simp [hdec]

/-- An exception leaving `down_stack_app_write` latches the flag and
records `SSL_ERROR`. -/
theorem dsaw_error_invalidates (s : St) (e : Exc) (t : St)
    (h : down_stack_app_write s = .error (e, t)) :
    t.invalidated_ = true ∧
    (s.hasStats = true → StatTag.SSL_ERROR ∈ t.statLog) := by
  unfold down_stack_app_write at h
  cases herr : (dsaWriteLoop s.app_write_queue s.ssl.wc_script).err with
  | none => simp [herr] at h
  | some e2 =>
      simp [herr] at h
      obtain ⟨-, ht⟩ := h
      subst ht
      refine ⟨rfl, fun hs => ?_⟩
      simp [invalidate, stat_error, hs]

/-- An exception leaving `down_stack_raw` latches the flag and
records `ENCAPSULATION_ERROR`. -/
theorem dsr_error_invalidates (env : Env) (now : Nat) (s : St) (e : Exc) (t : St)
    (h : down_stack_raw env now s = .error (e, t)) :
    t.invalidated_ = true ∧
    (s.hasStats = true → StatTag.ENCAPSULATION_ERROR ∈ t.statLog) := by
  unfold down_stack_raw at h
  cases herr : (dsrLoop env now s.raw_write_queue s.rel_send s.xmit_acks).err with
  | none => simp [herr] at h
  | some e2 =>
      simp [herr] at h
      obtain ⟨-, ht⟩ := h
      subst ht
      refine ⟨rfl, fun hs => ?_⟩
      simp [invalidate, stat_error, hs]

/-- An exception leaving `up_seq_read` latches the flag and records
`SSL_ERROR`. -/
theorem usr_error_invalidates (s : St) (e : Exc) (t : St)
    (h : up_seq_read s = .error (e, t)) :
    t.invalidated_ = true ∧
    (s.hasStats = true → StatTag.SSL_ERROR ∈ t.statLog) := by
  unfold up_seq_read at h
  cases herr : (usrLoop s.ssl.rc_script).err with
  | none => simp [herr] at h
  | some e2 =>
      simp [herr] at h
      obtain ⟨-, ht⟩ := h
      subst ht
      refine ⟨rfl, fun hs => ?_⟩
      simp [invalidate, stat_error, hs]

/-- The suppression guard of `flush` does not fire on a
non-invalidated top-level state: the full down-direction pipeline
runs. -/
theorem flush_active (env : Env) (now : Nat) (s : St)
    (h1 : s.invalidated_ = false) (h2 : s.up_stack_reentry_level = 0) :
    flush env now s =
      (match down_stack_raw env now s with
        | .error r => .error r
        | .ok s1 =>
          match down_stack_app env now s1 with
          | .error r => .error r
          | .ok s2 => .ok (update_retransmit now s2)) := by
  simp [flush, h1, h2]

/-- A `flush` call at positive reentrancy depth is suppressed
entirely. -/
theorem flush_suppressed (env : Env) (now : Nat) (s : St)
    (h : 0 < s.up_stack_reentry_level) :
    flush env now s = .ok s := by
  have hne : s.up_stack_reentry_level ≠ 0 := Nat.pos_iff_ne_zero.mp h
  simp [flush, hne]

/-- An exception leaving `down_stack_app` latches the flag. -/
theorem dsa_error_invalidates (env : Env) (now : Nat) (s : St) (e : Exc)
    (t : St) (h : down_stack_app env now s = .error (e, t)) :
    t.invalidated_ = true := by
  unfold down_stack_app at h
  by_cases hst : s.ssl_started_ = true
  · rw [if_pos hst] at h
    cases hw : down_stack_app_write s with
    | error r =>
        rw [hw] at h
        rcases r with ⟨e2, t2⟩
        simp at h
        obtain ⟨-, ht⟩ := h
        subst ht
        exact (dsaw_error_invalidates s e2 t2 hw).1
    | ok s1 =>
        rw [hw] at h
        cases herr :
            (dsaEncapLoop env now s1.ssl.out_ct s1.rel_send s1.xmit_acks).err with
        | none => simp [herr] at h
        | some e2 =>
            simp [herr] at h
            obtain ⟨-, ht⟩ := h
            subst ht
            rfl
  · rw [if_neg hst] at h
    simp at h

/-- An exception leaving `up_sequenced` latches the flag. -/
theorem up_sequenced_error_invalidates (s : St) (e : Exc) (t : St)
    (h : up_sequenced s = .error (e, t)) : t.invalidated_ = true := by
  rw [up_sequenced_def] at h
  by_cases hst : (up_seq_drain s).ssl_started_ = true
  · rw [if_pos hst] at h
    exact (usr_error_invalidates (up_seq_drain s) e t h).1
  · rw [if_neg hst] at h
    simp at h

/-- An exception leaving `flush` latches the flag: the fatal error is
re-raised to the immediate caller with the session invalidated. -/
theorem flush_error_invalidates (env : Env) (now : Nat) (s : St) (e : Exc)
    (t : St) (h : flush env now s = .error (e, t)) :
    t.invalidated_ = true := by
  unfold flush at h
  by_cases hg : (!s.invalidated_ && s.up_stack_reentry_level == 0) = true
  · rw [if_pos hg] at h
    cases hraw : down_stack_raw env now s with
    | error r =>
        rw [hraw] at h
        rcases r with ⟨e2, t2⟩
        simp at h
        obtain ⟨-, ht⟩ := h
        subst ht
        exact (dsr_error_invalidates env now s e2 t2 hraw).1
    | ok s1 =>
        rw [hraw] at h
        dsimp only at h
        cases hda : down_stack_app env now s1 with
        | error r =>
            rw [hda] at h
            rcases r with ⟨e2, t2⟩
            simp at h
            obtain ⟨-, ht⟩ := h
            subst ht
            exact dsa_error_invalidates env now s1 e2 t2 hda
        | ok s2 => rw [hda] at h; simp at h
  · rw [if_neg hg] at h
    simp at h

/-- The guard destructor decrements the carried reentrancy level by
one, on either exit path. -/
theorem reentry_of_unbump (r : Res) :
    reentry_of (unbump r) = reentry_of r - 1 := by
  cases r with
  | ok t => rfl
  | error p => rfl

/-- The reentrancy counter is restored on every exit path of
`up_stack`, normal or exceptional. -/
theorem reentry_of_up_stack (env : Env) (p : Packet) (s : St) :
    reentry_of (up_stack env p s) = s.up_stack_reentry_level := by
  unfold up_stack
  cases hdec : env.decapsulate p s.rel_recv s.rel_send s.xmit_acks with
  | error e => simp [hdec, reentry_of]
  | ok q =>
      simp only [hdec]
      rw [reentry_of_unbump]
      cases hq : q.1 with
      | false => simp [reentry_of]
      | true =>
          rw [if_pos rfl, reentry_of_up_sequenced]
          simp

/-- An exception leaving `up_stack` carries a state whose latch
status came from the dispatch: either the recoverable `decapsulate`
path (object exactly as before the call) or a fatal session-read path
(latch set). -/
theorem up_stack_error_cases (env : Env) (p : Packet) (s : St) (e : Exc)
    (t : St) (h : up_stack env p s = .error (e, t)) :
    t = s ∨ t.invalidated_ = true := by
  cases hdec : env.decapsulate p s.rel_recv s.rel_send s.xmit_acks with
  | error e2 =>
      rw [up_stack_decap_error env p s e2 hdec] at h
      simp at h
      exact Or.inl h.2.symm
  | ok q =>
      unfold up_stack at h
      simp only [hdec] at h
      cases hq : q.1 with
      | false => rw [hq] at h; simp [unbump] at h
      | true =>
          rw [hq] at h
          rw [if_pos rfl] at h
          cases hrun : up_sequenced { { s with
              up_stack_reentry_level := s.up_stack_reentry_level + 1 } with
              rel_recv := q.2.1, rel_send := q.2.2.1, xmit_acks := q.2.2.2 } with
          | ok u => rw [hrun] at h; simp [unbump] at h
          | error r =>
              rw [hrun] at h
              rcases r with ⟨e2, u⟩
              simp [unbump] at h
              obtain ⟨-, ht⟩ := h
              have := (up_sequenced_error_invalidates _ e2 u hrun)
              right
              rw [← ht]
              exact this

/-! Claim theorems. -/

/-- C2: once the invalidated flag is set it is never reset; every
mutating public operation (`start_handshake`, `net_recv`, `app_send`,
`raw_send`, `flush`, `send_pending_acks`, `retransmit`) is a no-op
returning the state with every field unchanged, and
`next_retransmit()` returns the infinite sentinel. -/
theorem c2_invalidated_latch (env : Env) (now : Nat) (p : Packet) (b : Buf)
    (s : St) (h : s.invalidated_ = true) :
    start_handshake s = .ok s ∧ net_recv env p s = .ok s ∧
    app_send b s = s ∧ raw_send p s = s ∧ flush env now s = .ok s ∧
    send_pending_acks env s = s ∧ retransmit now s = s ∧
    next_retransmit s = MTime.inf ∧
    (invalidate s).invalidated_ = true := by
  obtain ⟨h1, h2, h3, h4, h5, h6, h7⟩ := noop_when_invalidated env now p b s h
  exact ⟨h1, h2, h3, h4, h5, h6, h7, by simp [next_retransmit, h], rfl⟩

/-- Witness for C2 at a concrete invalidated state. -/
theorem c2_invalidated_latch_witness :
    ({ st0 with invalidated_ := true } : St).invalidated_ = true ∧
    start_handshake { st0 with invalidated_ := true } =
      .ok { st0 with invalidated_ := true } ∧
    next_retransmit { st0 with invalidated_ := true } = MTime.inf := by
  have h := c2_invalidated_latch env0 0 Packet.empty []
    { st0 with invalidated_ := true } rfl
  exact ⟨rfl, h.1, h.2.2.2.2.2.2.2.1⟩

/-- Fixture for C6: the session's own `start_handshake` throws
exception 7. -/
def st6 : St := { st0 with ssl := { ssl0 with start_res := some 7 } }

/-- C6 counterexample: at `st6` the handshake failure leaves the
orchestrator not invalidated and records no statistic, refuting the
claim that it is treated like the fatal cleartext/ciphertext I/O
failures. -/
theorem c6_counterexample :
    start_handshake st6 = .error (7, st6) ∧
    st6.invalidated_ = false ∧ st6.statLog = [] ∧
    st6.hasStats = true ∧ st6.icb_calls = 0 :=
  ⟨rfl, rfl, rfl, rfl, rfl⟩

/-- C6 (amended): a failure raised by the secure-session adapter's
`start_handshake` operation propagates uncaught to the immediate
caller with the orchestrator state completely unchanged: no statistic
is recorded, the invalidated flag is not set, the handshake is not
marked started, and no receive-window drain runs. -/
theorem c6_handshake_failure_uncaught (s : St) (e : Exc)
    (h1 : s.invalidated_ = false) (h2 : s.ssl.start_res = some e) :
    start_handshake s = .error (e, s) := by
  simp [start_handshake, h1, h2]

/-- Witness for the amended C6 at the concrete fixture. -/
theorem c6_handshake_failure_uncaught_witness :
    start_handshake st6 = .error (7, st6) :=
  c6_handshake_failure_uncaught st6 7 rfl rfl

/-- C7 counterexample: two direct `invalidate()` calls invoke the
derived-layer hook twice, refuting the claim that it can never run a
second time no matter how often `invalidate()` is called. -/
theorem c7_counterexample :
    st0.icb_calls = 0 ∧ (invalidate (invalidate st0)).icb_calls = 2 :=
  ⟨rfl, rfl⟩

/-- C7 (amended): `invalidate()` invokes the hook exactly once per
call and latches the flag; because every public operation is a no-op
on an invalidated state, internal fatal-error paths cannot reach
`invalidate()` a second time — only a further direct external call to
`invalidate()` runs the hook again. -/
theorem c7_hook_once_per_invalidate (env : Env) (now : Nat) (p : Packet)
    (b : Buf) (s : St) (h : s.invalidated_ = true) :
    (∀ t : St, (invalidate t).icb_calls = t.icb_calls + 1 ∧
      (invalidate t).invalidated_ = true) ∧
    start_handshake s = .ok s ∧ net_recv env p s = .ok s ∧
    app_send b s = s ∧ raw_send p s = s ∧ flush env now s = .ok s ∧
    send_pending_acks env s = s ∧ retransmit now s = s :=
  ⟨fun _ => ⟨rfl, rfl⟩, noop_when_invalidated env now p b s h⟩

/-- Witness for the amended C7 at a concrete invalidated state. -/
theorem c7_hook_once_per_invalidate_witness :
    (invalidate st0).icb_calls = st0.icb_calls + 1 ∧
    flush env0 0 { st0 with invalidated_ := true } =
      .ok { st0 with invalidated_ := true } := by
  have h := c7_hook_once_per_invalidate env0 0 Packet.empty []
    { st0 with invalidated_ := true } rfl
  exact ⟨(h.1 st0).1, h.2.2.2.2.2.1⟩

/-- Fixture for C1: a derived layer whose `decapsulate` always throws
exception 5. -/
def envD : Env :=
  { encapsulate := fun _ p xa => .ok (p, xa),
    decapsulate := fun _ _ _ _ => .error 5,
    generate_ack := fun xa => (Packet.empty, xa.drop 1) }

/-- C3: a `flush` issued while an `up_stack` dispatch is in progress
(reentrancy depth positive) has no effect on any state; the depth
counter is restored on every exit path of the dispatch, a propagated
`decapsulate` exception included, so a later top-level `flush` is not
suppressed and runs the full down-direction pipeline. -/
theorem c3_reentrancy_guard :
    (∀ (env : Env) (now : Nat) (s : St), 0 < s.up_stack_reentry_level →
       flush env now s = .ok s) ∧
    (∀ (env : Env) (p : Packet) (s : St),
       reentry_of (up_stack env p s) = s.up_stack_reentry_level) ∧
    (∀ (env : Env) (p : Packet) (s : St) (e : Exc) (t : St),
       up_stack env p s = .error (e, t) →
       t.up_stack_reentry_level = s.up_stack_reentry_level) ∧
    (∀ (env : Env) (now : Nat) (s : St), s.invalidated_ = false →
       s.up_stack_reentry_level = 0 →
       flush env now s =
         (match down_stack_raw env now s with
           | .error r => .error r
           | .ok s1 =>
             match down_stack_app env now s1 with
             | .error r => .error r
             | .ok s2 => .ok (update_retransmit now s2))) := by
  refine ⟨flush_suppressed, reentry_of_up_stack, ?_, flush_active⟩
  intro env p s e t h
  have hre := reentry_of_up_stack env p s
  rw [h] at hre
  exact hre

/-- Witness for C3: at a depth-1 state the nested `flush` returns the
state untouched; the counter is restored across a throwing
`decapsulate`; at depth 0 the same `flush` runs the pipeline. -/
theorem c3_reentrancy_guard_witness :
    flush env0 0 { st0 with up_stack_reentry_level := 1 } =
      .ok { st0 with up_stack_reentry_level := 1 } ∧
    reentry_of (up_stack envD Packet.empty st0) = 0 ∧
    flush env0 5 st0 = .ok (update_retransmit 5 st0) := by
  refine ⟨c3_reentrancy_guard.1 env0 0 _ (by decide), ?_, ?_⟩
  · exact c3_reentrancy_guard.2.1 envD Packet.empty st0
  · rw [c3_reentrancy_guard.2.2.2 env0 5 st0 rfl rfl]
    rfl

/-- C10: the reentrancy counter is bumped only around `net_recv`'s
`up_stack` dispatch; `start_handshake` runs its delivery pass
(`up_sequenced`) with the counter unchanged, and the counter stays
unchanged throughout that pass, so a `flush` issued from a callback
during `start_handshake` sees depth 0 and executes the pipeline
instead of being suppressed. -/
theorem c10_handshake_runs_unbumped :
    (∀ s : St, s.invalidated_ = false → s.ssl.start_res = none →
       start_handshake s =
         up_sequenced { s with ssl_started_ := true,
                               ssl := { s.ssl with started := true } } ∧
       ({ s with ssl_started_ := true,
                 ssl := { s.ssl with started := true } } : St).up_stack_reentry_level
         = s.up_stack_reentry_level) ∧
    (∀ s : St, reentry_of (up_sequenced s) = s.up_stack_reentry_level) ∧
    (∀ (env : Env) (now : Nat) (t : St), t.invalidated_ = false →
       t.up_stack_reentry_level = 0 →
       flush env now t =
         (match down_stack_raw env now t with
           | .error r => .error r
           | .ok s1 =>
             match down_stack_app env now s1 with
             | .error r => .error r
             | .ok s2 => .ok (update_retransmit now s2))) := by
  refine ⟨?_, reentry_of_up_sequenced, flush_active⟩
  intro s h1 h2
  constructor
  · simp [start_handshake, h1, h2]
  · rfl

/-- Witness for C10 at the fresh fixture: the handshake's delivery
pass runs at depth 0 and a top-level `flush` there is executed. -/
theorem c10_handshake_runs_unbumped_witness :
    start_handshake st0 =
      up_sequenced { st0 with ssl_started_ := true,
                              ssl := { st0.ssl with started := true } } ∧
    reentry_of (up_sequenced st0) = 0 ∧
    flush env0 0 st0 = .ok (update_retransmit 0 st0) := by
  refine ⟨(c10_handshake_runs_unbumped.1 st0 rfl rfl).1, ?_, ?_⟩
  · exact c10_handshake_runs_unbumped.2.1 st0
  · rw [c10_handshake_runs_unbumped.2.2 env0 0 st0 rfl rfl]
    rfl

/-- C1: a `decapsulate` exception during `net_recv` propagates to the
caller with the orchestrator not invalidated and still fully usable
(a later `net_recv` dispatches normally); exceptions from the
session's `write_cleartext_unbuffered` (cleartext half of
`down_stack_app`), from `encapsulate` (raw branch and ciphertext
half), and from the session's `read_cleartext` (read half of
`up_sequenced`) record `SSL_ERROR` or `ENCAPSULATION_ERROR`
respectively, latch the invalidated flag, and are re-raised to the
immediate caller (`flush` re-raises them with the latch set). -/
theorem c1_error_partition :
    (∀ (env : Env) (p : Packet) (s : St) (e : Exc),
       s.invalidated_ = false →
       env.decapsulate p s.rel_recv s.rel_send s.xmit_acks = .error e →
       net_recv env p s = .error (e, s) ∧
       ∀ (env2 : Env) (p2 : Packet), net_recv env2 p2 s = up_stack env2 p2 s) ∧
    (∀ (s : St) (e : Exc) (t : St), down_stack_app_write s = .error (e, t) →
       t.invalidated_ = true ∧
       (s.hasStats = true → StatTag.SSL_ERROR ∈ t.statLog)) ∧
    (∀ (env : Env) (now : Nat) (s : St) (e : Exc) (t : St),
       down_stack_raw env now s = .error (e, t) →
       t.invalidated_ = true ∧
       (s.hasStats = true → StatTag.ENCAPSULATION_ERROR ∈ t.statLog)) ∧
    (∀ (env : Env) (now : Nat) (s s1 : St) (e : Exc) (t : St),
       down_stack_app_write s = .ok s1 →
       down_stack_app env now s = .error (e, t) →
       t.invalidated_ = true ∧
       (s1.hasStats = true → StatTag.ENCAPSULATION_ERROR ∈ t.statLog)) ∧
    (∀ (s : St) (e : Exc) (t : St), up_seq_read s = .error (e, t) →
       t.invalidated_ = true ∧
       (s.hasStats = true → StatTag.SSL_ERROR ∈ t.statLog)) ∧
    (∀ (env : Env) (now : Nat) (s : St) (e : Exc) (t : St),
       flush env now s = .error (e, t) → t.invalidated_ = true) := by
  refine ⟨?_, dsaw_error_invalidates, dsr_error_invalidates, ?_,
    usr_error_invalidates, flush_error_invalidates⟩
  · intro env p s e hinv hdec
    have hup := up_stack_decap_error env p s e hdec
    constructor
    · rw [net_recv, if_neg (by simp [hinv])]
      exact hup
    · intro env2 p2
      rw [net_recv, if_neg (by simp [hinv])]
  · intro env now s s1 e t hw h
    unfold down_stack_app at h
    by_cases hst : s.ssl_started_ = true
    · rw [if_pos hst, hw] at h
      dsimp only at h
      cases herr :
          (dsaEncapLoop env now s1.ssl.out_ct s1.rel_send s1.xmit_acks).err with
      | none => simp [herr] at h
      | some e2 =>
          simp [herr] at h
          obtain ⟨-, ht⟩ := h
          subst ht
          refine ⟨rfl, fun hs => ?_⟩
          simp [invalidate, stat_error, hs]
    · rw [if_neg hst] at h
      simp at h

/-- Witness for C1: at the fresh fixture a throwing `decapsulate`
surfaces from `net_recv` with the state exactly as before. -/
theorem c1_error_partition_witness :
    net_recv envD Packet.empty st0 = .error (5, st0) ∧
    st0.invalidated_ = false :=
  ⟨(c1_error_partition.1 envD Packet.empty st0 5 rfl rfl).1, rfl⟩

/-- The retransmit scan leaves every entry's packet (and the slot
order, hence the sequence ids) unchanged, re-arms exactly the elapsed
entries, and emits exactly the stored packets of the elapsed entries
in head-to-tail order. -/
theorem retransmitScan_spec (now rto : Nat) (l : List RSMsg) :
    retransmitScan now rto l =
      (l.map (fun m => if elapsed now m then
          { m with retransmit_at := .fin (now + rto) } else m),
       (l.filter (elapsed now)).map RSMsg.packet) := by
  induction l with
  | nil => rfl
  | cons m rest ih =>
      by_cases h : elapsed now m = true
      · simp [retransmitScan, ih, h]
      · simp [retransmitScan, ih, h]

/-- C4: before the deadline `retransmit()` changes nothing; once the
current time reaches the deadline it visits the send-window entries
in increasing sequence-id order (head to tail), re-sends each elapsed
entry's stored packet unchanged (same slot, same id, same payload, no
re-encapsulation), re-arms only the elapsed entries' deadlines, then
recomputes the global deadline from the window; all other state is
untouched. -/
theorem c4_retransmit (now : Nat) (s : St) :
    (MTime.ble s.next_retransmit_ (.fin now) = false → retransmit now s = s) ∧
    (s.invalidated_ = false → MTime.ble s.next_retransmit_ (.fin now) = true →
      (retransmit now s).rel_send.msgs =
        s.rel_send.msgs.map (fun m => if elapsed now m then
          { m with retransmit_at := .fin (now + s.rel_send.rto) } else m) ∧
      (retransmit now s).netLog =
        s.netLog ++ (s.rel_send.msgs.filter (elapsed now)).map RSMsg.packet ∧
      (retransmit now s).rel_send.head_id = s.rel_send.head_id ∧
      (retransmit now s).rel_send.span = s.rel_send.span ∧
      (retransmit now s).rel_send.rto = s.rel_send.rto ∧
      (retransmit now s).next_retransmit_ =
        MTime.add (.fin now) ((retransmit now s).rel_send.until_retransmit now) ∧
      (retransmit now s).invalidated_ = s.invalidated_ ∧
      (retransmit now s).ssl_started_ = s.ssl_started_ ∧
      (retransmit now s).appLog = s.appLog ∧
      (retransmit now s).rawLog = s.rawLog ∧
      (retransmit now s).app_write_queue = s.app_write_queue ∧
      (retransmit now s).raw_write_queue = s.raw_write_queue ∧
      (retransmit now s).rel_recv = s.rel_recv ∧
      (retransmit now s).xmit_acks = s.xmit_acks ∧
      (retransmit now s).statLog = s.statLog ∧
      (retransmit now s).ssl = s.ssl ∧
      (retransmit now s).icb_calls = s.icb_calls) := by
  constructor
  · intro h
    simp [retransmit, h]
  · intro h1 h2
    have hg : (!s.invalidated_ && MTime.ble s.next_retransmit_ (.fin now)) = true := by
      simp [h1, h2]
    simp [retransmit, hg, update_retransmit, retransmitScan_spec]

/-- Fixtures for the retransmission claims. -/
def pktA : Packet := ⟨true, false, [1]⟩

def pktB : Packet := ⟨true, false, [2]⟩

/-- Fixture for C4: deadline 8, one entry due at 9 and one at 12. -/
def st4 : St :=
  { st0 with next_retransmit_ := .fin 8,
             rel_send := ⟨4, 3, 0, [⟨pktA, .fin 9, true⟩, ⟨pktB, .fin 12, true⟩]⟩ }

/-- Witness for C4: at time 10 only the elapsed entry is re-sent with
its stored packet and re-armed; at time 3 nothing happens. -/
theorem c4_retransmit_witness :
    (retransmit 10 st4).rel_send.msgs =
      [⟨pktA, .fin 13, true⟩, ⟨pktB, .fin 12, true⟩] ∧
    (retransmit 10 st4).netLog = [pktA] ∧
    retransmit 3 st4 = st4 := by
  have h := (c4_retransmit 10 st4).2 rfl rfl
  refine ⟨?_, ?_, (c4_retransmit 3 st4).1 rfl⟩
  · rw [h.1]; rfl
  · rw [h.2.1]; rfl

/-- Fixture for C8: a derived layer whose `decapsulate` retires every
outstanding send-window entry (an ACK for everything) and queues
nothing. -/
def env8 : Env :=
  { encapsulate := fun _ p xa => .ok (p, xa),
    decapsulate := fun _ rr rs xa => .ok (false, rr, { rs with msgs := [] }, xa),
    generate_ack := fun xa => (Packet.empty, xa.drop 1) }

/-- Fixture for C8: one outstanding entry due at 10, deadline
consistent at time 7. -/
def st8 : St :=
  { st0 with next_retransmit_ := .fin 10,
             rel_send := ⟨4, 3, 0, [⟨pktA, .fin 10, true⟩]⟩ }

/-- State after the acknowledging `net_recv` of the C8
counterexample. -/
def st8' : St := { st8 with rel_send := ⟨4, 3, 0, []⟩ }

/-- C8 counterexample: the deadline invariant holds before the
`net_recv`, the `net_recv` retires the only send-window entry through
its ACKs, and afterwards the stored deadline is stale — it no longer
equals now plus the window's own estimate, because `net_recv` never
recomputes it.  This refutes the claim that the deadline is
recomputed after ACK removals during `net_recv`'s decapsulation. -/
theorem c8_counterexample :
    st8.next_retransmit_ =
      MTime.add (.fin 7) (st8.rel_send.until_retransmit 7) ∧
    net_recv env8 Packet.empty st8 = .ok st8' ∧
    st8'.next_retransmit_ ≠
      MTime.add (.fin 7) (st8'.rel_send.until_retransmit 7) :=
  ⟨rfl, rfl, by decide⟩

/-- A successful `up_seq_read` leaves the stored deadline alone. -/
theorem usr_ok_next (s t : St) (h : up_seq_read s = .ok t) :
    t.next_retransmit_ = s.next_retransmit_ := by
  unfold up_seq_read at h
  cases herr : (usrLoop s.ssl.rc_script).err with
  | none =>
      simp [herr] at h
      rw [← h]
  | some e => simp [herr] at h

/-- A successful `up_sequenced` leaves the stored deadline alone. -/
theorem up_sequenced_ok_next (s t : St) (h : up_sequenced s = .ok t) :
    t.next_retransmit_ = s.next_retransmit_ := by
  rw [up_sequenced_def] at h
  by_cases hst : (up_seq_drain s).ssl_started_ = true
  · rw [if_pos hst] at h
    rw [usr_ok_next _ _ h]
    exact (up_seq_drain_fields s).2.2.2.1
  · rw [if_neg hst] at h
    simp at h
    rw [← h]
    exact (up_seq_drain_fields s).2.2.2.1

/-- A successful `net_recv` never recomputes the stored retransmit
deadline. -/
theorem net_recv_ok_next (env : Env) (p : Packet) (s t : St)
    (h : net_recv env p s = .ok t) :
    t.next_retransmit_ = s.next_retransmit_ := by
  unfold net_recv at h
  by_cases hi : s.invalidated_ = true
  · rw [if_pos hi] at h
    simp at h
    rw [← h]
  · rw [if_neg hi] at h
    unfold up_stack at h
    cases hdec : env.decapsulate p s.rel_recv s.rel_send s.xmit_acks with
    | error e => simp [hdec] at h
    | ok q =>
        simp only [hdec] at h
        cases hq : q.1 with
        | false =>
            rw [hq] at h
            simp [unbump] at h
            rw [← h]
        | true =>
            rw [hq, if_pos rfl] at h
            cases hrun : up_sequenced { { s with
                up_stack_reentry_level := s.up_stack_reentry_level + 1 } with
                rel_recv := q.2.1, rel_send := q.2.2.1, xmit_acks := q.2.2.2 } with
            | error r => rw [hrun] at h; rcases r with ⟨e2, u⟩; simp [unbump] at h
            | ok u =>
                rw [hrun] at h
                simp [unbump] at h
                have hu := up_sequenced_ok_next _ _ hrun
                rw [← h]
                exact hu

/-- C8 (amended): the retransmit deadline is recomputed only by a
top-level non-invalidated `flush` and by `retransmit` once it fires;
immediately after either of those the deadline equals the current
time plus the send window's own time-until-next-retransmit estimate.
`net_recv` performs no recomputation, so ACKs recorded against the
send window during decapsulation leave the deadline stale until the
next `flush` or `retransmit`. -/
theorem c8_deadline_recompute :
    (∀ (env : Env) (now : Nat) (s t : St),
       s.invalidated_ = false → s.up_stack_reentry_level = 0 →
       flush env now s = .ok t →
       t.next_retransmit_ =
         MTime.add (.fin now) (t.rel_send.until_retransmit now)) ∧
    (∀ (now : Nat) (s : St), s.invalidated_ = false →
       MTime.ble s.next_retransmit_ (.fin now) = true →
       (retransmit now s).next_retransmit_ =
         MTime.add (.fin now) ((retransmit now s).rel_send.until_retransmit now)) ∧
    (∀ (env : Env) (p : Packet) (s t : St),
       net_recv env p s = .ok t → t.next_retransmit_ = s.next_retransmit_) := by
  refine ⟨?_, ?_, ?_⟩
  · intro env now s t h1 h2 hok
    rw [flush_active env now s h1 h2] at hok
    cases hraw : down_stack_raw env now s with
    | error r => rw [hraw] at hok; simp at hok
    | ok s1 =>
        rw [hraw] at hok
        dsimp only at hok
        cases hda : down_stack_app env now s1 with
        | error r => rw [hda] at hok; simp at hok
        | ok s2 =>
            rw [hda] at hok
            simp at hok
            subst hok
            rfl
  · intro now s h1 h2
    have hg : (!s.invalidated_ && MTime.ble s.next_retransmit_ (.fin now)) = true := by
      simp [h1, h2]
    simp [retransmit, hg, update_retransmit]
  · exact net_recv_ok_next

/-- Witness for the amended C8: a top-level `flush` of the fresh
fixture re-establishes the invariant at time 5. -/
theorem c8_deadline_recompute_witness :
    flush env0 5 st0 = .ok (update_retransmit 5 st0) ∧
    (update_retransmit 5 st0).next_retransmit_ =
      MTime.add (.fin 5) ((update_retransmit 5 st0).rel_send.until_retransmit 5) := by
  constructor
  · rw [flush_active env0 5 st0 rfl rfl]; rfl
  · exact c8_deadline_recompute.1 env0 5 st0 (update_retransmit 5 st0) rfl rfl
      (by rw [flush_active env0 5 st0 rfl rfl]; rfl)

/-- Fixture for C5: handshake started, a 4-byte buffer queued, and a
session write that accepts only 2 of its bytes. -/
def st5 : St :=
  { st0 with ssl_started_ := true, app_write_queue := [[1, 2, 3, 4]],
             ssl := { ssl0 with wc_script := [.wrote 2] } }

/-- State after the partially accepted write of the C5
counterexample. -/
def st5' : St :=
  { st5 with app_write_queue := [],
             ssl := { st5.ssl with wc_script := [], bytes_in := [1, 2] } }

/-- C5 counterexample: the session accepts only bytes 1 and 2 of the
queued 4-byte buffer, yet the code removes the whole buffer from the
queue — bytes 3 and 4 are neither retained at the queue front nor
handed to the session, refuting both that the unsent bytes remain
queued and that a buffer is removed only after being fully handed
off. -/
theorem c5_counterexample :
    st5.app_write_queue = [[1, 2, 3, 4]] ∧
    down_stack_app_write st5 = .ok st5' ∧
    st5'.app_write_queue = [] ∧
    st5'.ssl.bytes_in = [1, 2] :=
  ⟨rfl, rfl, rfl, rfl⟩

/-- C5 (amended): a buffer on which the session write signals
`SHOULD_RETRY` stays whole at the front of the cleartext queue with
none of its bytes handed off, and the next `flush` retries it from
its first byte; when a later write returns a byte count the code
removes the buffer whole, handing its accepted bytes to the session
exactly once — the code treats every non-retry return as a full
handoff, so a write that accepts only part of a buffer loses the
remainder (see the counterexample). -/
theorem c5_retry_keeps_buffer :
    (∀ (s : St) (buf : Buf) (rest : List Buf) (scr : List WCRes),
       s.app_write_queue = buf :: rest → s.ssl.wc_script = .retry :: scr →
       down_stack_app_write s =
         .ok { s with ssl := { s.ssl with wc_script := scr } }) ∧
    (∀ (s : St) (buf : Buf) (rest : List Buf),
       s.app_write_queue = buf :: rest → s.ssl.wc_script = [.wrote buf.length] →
       down_stack_app_write s =
         .ok { s with
               app_write_queue := rest,
               ssl := { s.ssl with wc_script := [], bytes_in := s.ssl.bytes_in ++ buf } }) := by
  constructor
  · intro s buf rest scr hq hs
    unfold down_stack_app_write
    rcases s with ⟨re, inv, sst, nr, tab, asb, awq, rwq, hst, sl, ssl, rr, rs, xa,
      mal, nl, al, rl, ic⟩
    rcases ssl with ⟨b1, b2, b3, b4, b5, b6, b7⟩
    simp only at hq hs
    subst hq
    subst hs
    simp [dsaWriteLoop]
  · intro s buf rest hq hs
    unfold down_stack_app_write
    rcases s with ⟨re, inv, sst, nr, tab, asb, awq, rwq, hst, sl, ssl, rr, rs, xa,
      mal, nl, al, rl, ic⟩
    rcases ssl with ⟨b1, b2, b3, b4, b5, b6, b7⟩
    simp only at hq hs
    subst hq
    subst hs
    cases rest with
    | nil => simp [dsaWriteLoop]
    | cons b2' rest2 => simp [dsaWriteLoop]

/-- Fixture for the C5 witness: a would-block write followed, on the
next flush, by a full write. -/
def st5r : St :=
  { st0 with ssl_started_ := true, app_write_queue := [[7, 8]],
             ssl := { ssl0 with wc_script := [.retry] } }

/-- Witness for the amended C5: the would-block write keeps the whole
buffer queued with nothing handed off; the subsequent full write
hands exactly its bytes once and removes it. -/
theorem c5_retry_keeps_buffer_witness :
    down_stack_app_write st5r =
      .ok { st5r with ssl := { st5r.ssl with wc_script := [] } } ∧
    down_stack_app_write
        { st5r with ssl := { st5r.ssl with wc_script := [.wrote 2] } } =
      .ok { st5r with app_write_queue := [],
                      ssl := { st5r.ssl with wc_script := [], bytes_in := [7, 8] } } := by
  constructor
  · exact c5_retry_keeps_buffer.1 st5r [7, 8] [] [] rfl rfl
  · exact c5_retry_keeps_buffer.2
      { st5r with ssl := { st5r.ssl with wc_script := [.wrote 2] } } [7, 8] [] rfl rfl

/-- Raw-vs-SSL test on a receive-window slot: `true` exactly for an
occupied slot holding a raw packet. -/
def rawslot : Option Packet → Bool
  | some p => p.raw
  | none => false

/-- With the handshake not started, the drain loop delivers exactly
the raw prefix of the in-order data and stops at the first empty slot
or SSL packet, feeding nothing to the session. -/
theorem usdLoop_not_started (l : List (Option Packet)) :
    usdLoop false l =
      ⟨l.dropWhile rawslot, (l.takeWhile rawslot).length,
        (l.takeWhile rawslot).reduceOption, []⟩ := by
  induction l with
  | nil => rfl
  | cons o rest ih =>
      cases o with
      | none => simp [usdLoop, List.dropWhile, List.takeWhile, rawslot]
      | some p =>
          by_cases h : p.raw = true
          · simp [usdLoop, h, ih, List.dropWhile, List.takeWhile, rawslot,
              List.reduceOption]
          · simp [usdLoop, h, List.dropWhile, List.takeWhile, rawslot]

/-- A drain whose loop makes no progress leaves the state exactly as
it was. -/
theorem up_seq_drain_id (s : St)
    (h : usdLoop s.ssl_started_ s.rel_recv.msgs = ⟨s.rel_recv.msgs, 0, [], []⟩) :
    up_seq_drain s = s := by
  unfold up_seq_drain
  rw [h]
  rcases s with ⟨re, inv, sst, nr, tab, asb, awq, rwq, hst, sl, ssl, rr, rs, xa,
    mal, nl, al, rl, ic⟩
  rcases ssl with ⟨b1, b2, b3, b4, b5, b6, b7⟩
  rcases rr with ⟨hid, ms⟩
  simp

/-- C9: while the session has not started, an in-order SSL-ciphertext
receive-window entry stops the drain — it and every later entry stay
queued, nothing is delivered or dropped, and nothing is fed to the
session; a subsequent `start_handshake` marks the session started and
immediately re-runs the in-order drain over the buffered data. -/
theorem c9_unstarted_ssl_waits :
    (∀ s : St, s.ssl_started_ = false →
       (up_seq_drain s).rel_recv.msgs = s.rel_recv.msgs.dropWhile rawslot ∧
       (up_seq_drain s).ssl.in_ct = s.ssl.in_ct ∧
       ∀ (p : Packet) (rest : List (Option Packet)),
         s.rel_recv.msgs = some p :: rest → p.raw = false →
         up_sequenced s = .ok s) ∧
    (∀ s : St, s.invalidated_ = false → s.ssl.start_res = none →
       start_handshake s =
         up_sequenced { s with ssl_started_ := true,
                               ssl := { s.ssl with started := true } } ∧
       ({ s with ssl_started_ := true,
                 ssl := { s.ssl with started := true } } : St).ssl_started_ = true) := by
  constructor
  · intro s h
    refine ⟨?_, ?_, ?_⟩
    · simp [up_seq_drain, h, usdLoop_not_started]
    · simp [up_seq_drain, h, usdLoop_not_started]
    · intro p rest hm hr
      have hid : up_seq_drain s = s := by
        apply up_seq_drain_id
        rw [h, hm]
        simp [usdLoop, hr]
      rw [up_sequenced_def, hid, if_neg (by simp [h])]
  · intro s h1 h2
    exact ⟨by simp [start_handshake, h1, h2], rfl⟩

/-- Fixture for C9: one in-order SSL-ciphertext packet buffered while
the handshake has not been started. -/
def sslPkt : Packet := ⟨true, false, [9]⟩

/-- Fixture state for the C9 witness. -/
def st9 : St := { st0 with rel_recv := ⟨0, [some sslPkt]⟩ }

/-- Witness for C9: the dispatch leaves the buffered SSL packet
queued and untouched; `start_handshake` marks the session started and
immediately re-drains. -/
theorem c9_unstarted_ssl_waits_witness :
    up_sequenced st9 = .ok st9 ∧
    start_handshake st9 =
      up_sequenced { st9 with ssl_started_ := true,
                              ssl := { st9.ssl with started := true } } := by
  refine ⟨?_, ((c9_unstarted_ssl_waits.2 st9 rfl rfl).1)⟩
  exact ((c9_unstarted_ssl_waits.1 st9 rfl).2.2) sslPkt [] rfl rfl

end ProtoStack
